import Mathlib

/-!
Shallow embedding of the RBAC core of the repository:
permission resolution and caching (app/core/permissions.py,
app/utils/cache_manager.py), the optimistic-concurrency base DAO
(app/dao/base.py), the binding DAOs (app/dao/role_permission.py,
app/dao/user_role.py), the epoch-bumping service layer
(app/services/role.py, app/services/permission.py, app/services/user.py)
and the auth session core (app/services/auth.py, app/core/security.py).

Conventions:
* tables are lists of rows; the relational store never errors;
* timestamps are natural numbers (minutes);
* Python sets are lists used up to membership (`dedup` where the source
  builds a set from a comprehension);
* the Redis cache is an association list of typed values plus a list of
  primitive operations that are injected to fail, mirroring "the cache
  backend raises on this call".
-/

namespace FA

/-- Base entity row, mirroring `BaseModel` in app/models/base.py:
id, is_active, is_deleted, deleted_at, version, created_at, updated_at,
plus the entity-specific columns collected in `payload`. -/
structure Row (α : Type) where
  id : Nat
  version : Nat
  isActive : Bool
  isDeleted : Bool
  deletedAt : Option Nat
  createdAt : Nat
  updatedAt : Nat
  payload : α
deriving Repr, DecidableEq

/-- Match predicate of `BaseDAO.update_with_version`:
`alive().filter(id=entity_id, version=version)`. -/
def uwvMatches (eid ver : Nat) (r : Row α) : Bool :=
  !r.isDeleted && r.id == eid && r.version == ver

/-- `BaseDAO.update_with_version` (app/dao/base.py): one conditional update
`SET patch, version = version + 1, updated_at = now WHERE id = eid AND
version = ver AND NOT is_deleted`; returns (new table, affected count).
The patch stands for the `data` dict applied to the row's columns; the
`version` and `updated_at` entries are written after it, as in
`{**data, "version": version + 1, "updated_at": now}`. -/
def updateWithVersion (now : Nat) (t : List (Row α)) (eid ver : Nat)
    (patch : Row α → Row α) : List (Row α) × Nat :=
  (t.map fun r =>
      if uwvMatches eid ver r then
        { patch r with version := ver + 1, updatedAt := now }
      else r,
   (t.filter (uwvMatches eid ver)).length)

/-- Match predicate of `BaseDAO.soft_delete`: `filter(id=eid, is_deleted=False)`. -/
def sdMatches (eid : Nat) (r : Row α) : Bool :=
  r.id == eid && !r.isDeleted

/-- `BaseDAO.soft_delete`: conditional update setting `is_deleted`,
`deleted_at` and `updated_at` on the not-yet-deleted row with this id. -/
def softDelete (now : Nat) (t : List (Row α)) (eid : Nat) :
    List (Row α) × Nat :=
  (t.map fun r =>
      if sdMatches eid r then
        { r with isDeleted := true, deletedAt := some now, updatedAt := now }
      else r,
   (t.filter (sdMatches eid)).length)

/-- Match predicate of `BaseDAO.restore`: `filter(id=eid, is_deleted=True)`. -/
def rsMatches (eid : Nat) (r : Row α) : Bool :=
  r.id == eid && r.isDeleted

/-- `BaseDAO.restore`: conditional update clearing `is_deleted` and
`deleted_at` on the soft-deleted row with this id. -/
def restoreRow (now : Nat) (t : List (Row α)) (eid : Nat) :
    List (Row α) × Nat :=
  (t.map fun r =>
      if rsMatches eid r then
        { r with isDeleted := false, deletedAt := none, updatedAt := now }
      else r,
   (t.filter (rsMatches eid)).length)

/-- `RoleDAO.disable_roles` / `PermissionDAO.disable_permissions`:
`alive().filter(id__in=ids).update(is_active=False)` (no timestamps). -/
def disableRows (t : List (Row α)) (ids : List Nat) : List (Row α) × Nat :=
  (t.map fun r =>
      if !r.isDeleted && ids.contains r.id then { r with isActive := false }
      else r,
   (t.filter fun r => !r.isDeleted && ids.contains r.id).length)

/-- `BaseDAO.hard_delete`: `model.filter(id=eid).delete()` (ignores soft-delete). -/
def hardDelete (t : List (Row α)) (eid : Nat) : List (Row α) × Nat :=
  (t.filter fun r => !(r.id == eid), (t.filter fun r => r.id == eid).length)

/-- Primary keys are assigned by the database; new rows take max id + 1. -/
def nextId (t : List (Row α)) : Nat :=
  (t.map fun r => r.id).foldr max 0 + 1

/-- Columns of a `Role` row (app/models/role.py): `code`, `name`. -/
structure RolePayload where
  code : String
  name : String
deriving Repr, DecidableEq

/-- Columns of a `Permission` row (app/models/permission.py): `code`, `name`. -/
structure PermPayload where
  code : String
  name : String
deriving Repr, DecidableEq

/-- Columns of a `UserRole` binding row (app/models/user_role.py). -/
structure UserRolePayload where
  userId : Nat
  roleId : Nat
deriving Repr, DecidableEq

/-- Columns of a `RolePermission` binding row (app/models/role_permission.py). -/
structure RolePermPayload where
  roleId : Nat
  permissionId : Nat
deriving Repr, DecidableEq

/-- Columns of a `User` row (app/models/user.py) used by the auth core. -/
structure UserPayload where
  username : String
  phone : String
  passwordHash : String
  failedAttempts : Nat
  lockedUntil : Option Nat
  lastLoginAt : Option Nat
deriving Repr, DecidableEq

abbrev RoleRow := Row RolePayload
abbrev PermRow := Row PermPayload
abbrev UserRoleRow := Row UserRolePayload
abbrev RolePermRow := Row RolePermPayload
abbrev UserRow := Row UserPayload

/-- The relational store: one table per entity. -/
structure Db where
  users : List UserRow
  roles : List RoleRow
  perms : List PermRow
  userRoles : List UserRoleRow
  rolePerms : List RolePermRow
deriving Repr, DecidableEq

/-- `UserRoleDAO.list_roles_of_user`: `alive().filter(user_id=uid)`. -/
def listRolesOfUser (db : Db) (uid : Nat) : List UserRoleRow :=
  db.userRoles.filter fun r => !r.isDeleted && r.payload.userId == uid

/-- `RoleDAO.find_by_code`: `alive().filter(code=code).first()`. -/
def findRoleByCode (db : Db) (code : String) : Option RoleRow :=
  (db.roles.filter fun r => !r.isDeleted && r.payload.code == code).head?

/-- `RolePermissionDAO.list_by_role_ids`: empty short-circuit, then
`alive().filter(role_id__in=role_ids)`. -/
def listRolePermsByRoleIds (db : Db) (roleIds : List Nat) : List RolePermRow :=
  if roleIds.isEmpty then []
  else db.rolePerms.filter fun r => !r.isDeleted && roleIds.contains r.payload.roleId

/-- `PermissionDAO.list_by_ids`: empty short-circuit, then
`alive().filter(id__in=ids)`. -/
def listPermsByIds (db : Db) (ids : List Nat) : List PermRow :=
  if ids.isEmpty then []
  else db.perms.filter fun r => !r.isDeleted && ids.contains r.id

/-- `_load_user_permissions_from_db` (app/core/permissions.py): walk
user roles, short-circuit to the sentinel set containing only the string
ALL-marker when the user holds the role coded super_admin, otherwise
collect the codes of the permissions reachable through non-soft-deleted
bindings. The `try`/`except` around `find_by_code` is dropped because the
store never errors in this model. -/
def loadUserPermissionsFromDb (db : Db) (uid : Nat) : List String :=
  let roleIds := (listRolesOfUser db uid).map fun r => r.payload.roleId
  if roleIds.isEmpty then []
  else
    let isSuper :=
      match findRoleByCode db "super_admin" with
      | some sr => roleIds.contains sr.id
      | none => false
    if isSuper then ["__ALL__"]
    else
      let permIds := (listRolePermsByRoleIds db roleIds).map fun r => r.payload.permissionId
      if permIds.isEmpty then []
      else ((listPermsByIds db permIds).map fun p => p.payload.code).dedup

/-- Value stored under a Redis key: plain string, string set, or the
integer counters written by INCR. -/
inductive CVal where
  | str (s : String)
  | set (members : List String)
  | int (n : Nat)
deriving Repr, DecidableEq

/-- Cache primitives on which a backend error can be injected. -/
inductive COp where
  | cget
  | cexists
  | csmembers
  | csadd
  | cset
  | cexpire
  | cdelete
  | cincr
deriving Repr, DecidableEq

/-- The key-value content of the cache backend. -/
abbrev CStore := List (String × CVal)

def cmLookup (st : CStore) (k : String) : Option CVal :=
  (st.find? fun p => p.1 == k).map fun p => p.2

def cmInsert (st : CStore) (k : String) (v : CVal) : CStore :=
  (k, v) :: st.filter fun p => !(p.1 == k)

/-- `CacheManager.exists`. A flagged backend failure raises. -/
def cmExists (fail : List COp) (st : CStore) (k : String) : Except Unit Bool :=
  if fail.contains .cexists then .error ()
  else .ok (cmLookup st k).isSome

/-- `CacheManager.smembers`: empty set on a missing key; Redis raises
WRONGTYPE when the key holds a non-set value. -/
def cmSmembers (fail : List COp) (st : CStore) (k : String) :
    Except Unit (List String) :=
  if fail.contains .csmembers then .error ()
  else
    match cmLookup st k with
    | some (.set ms) => .ok ms
    | some _ => .error ()
    | none => .ok []

/-- `CacheManager.sadd`: set union on a set-typed or missing key; Redis
raises WRONGTYPE on a key of another type. -/
def cmSadd (fail : List COp) (st : CStore) (k : String) (ms : List String) :
    Except Unit CStore :=
  if fail.contains .csadd then .error ()
  else
    match cmLookup st k with
    | some (.set old) =>
        .ok (cmInsert st k (.set (old ++ ms.filter fun m => !old.contains m)))
    | some _ => .error ()
    | none => .ok (cmInsert st k (.set ms.dedup))

/-- `CacheManager.set`: SET overwrites a key of any type. TTLs are not
modelled beyond the success of the call. -/
def cmSet (fail : List COp) (st : CStore) (k v : String) :
    Except Unit CStore :=
  if fail.contains .cset then .error () else .ok (cmInsert st k (.str v))

/-- `CacheManager.expire`: only the success of the call is modelled. -/
def cmExpire (fail : List COp) (st : CStore) (_k : String) (_ttl : Nat) :
    Except Unit CStore :=
  if fail.contains .cexpire then .error () else .ok st

/-- `CacheManager.delete`. -/
def cmDelete (fail : List COp) (st : CStore) (ks : List String) :
    Except Unit CStore :=
  if fail.contains .cdelete then .error ()
  else .ok (st.filter fun p => !ks.contains p.1)

/-- `CacheManager.get_version`: `get` then `int(...)` with the conversion
error (only) caught and replaced by the default. A GET on a set-typed key
raises WRONGTYPE, which `get_version` does not catch. -/
def cmGetVersion (fail : List COp) (st : CStore) (k : String) (dflt : Nat) :
    Except Unit Nat :=
  if fail.contains .cget then .error ()
  else
    match cmLookup st k with
    | some (.int n) => .ok n
    | some (.str s) => .ok ((s.toNat?).getD dflt)
    | some (.set _) => .error ()
    | none => .ok dflt

/-- `CacheManager.incr` with Redis semantics: a missing key counts as 0
before the increment; a non-integer value raises. -/
def cmIncr (fail : List COp) (st : CStore) (k : String) :
    Except Unit (CStore × Nat) :=
  if fail.contains .cincr then .error ()
  else
    match cmLookup st k with
    | some (.int n) => .ok (cmInsert st k (.int (n + 1)), n + 1)
    | some _ => .error ()
    | none => .ok (cmInsert st k (.int 1), 1)

/-- `PERM_VERSION_KEY` in app/core/permissions.py. -/
def permVersionKey : String := "rbac:perm:version"

/-- `_cache_key` in app/core/permissions.py. -/
def permCacheKey (uid ver : Nat) : String :=
  "rbac:perm:v" ++ toString ver ++ ":u:" ++ toString uid

/-- `set(required).issubset(user_perm_set)`: every required code is a
member of the resolved set. -/
def pySubset (req s : List String) : Bool :=
  req.all fun c => s.contains c

/-- `user_has_permissions` (app/core/permissions.py). Returns the check
outcome and the resulting cache content, or the propagated backend error.
The branch structure mirrors the source: only the `smembers` read (and the
clean-up `delete` inside its handler) sit inside `try`/`except`; the
`exists`, `sadd`, `expire` and `set` calls are unguarded. -/
def userHasPermissions (db : Db) (fail : List COp) (st : CStore)
    (uid : Nat) (required : List String) : Except Unit (Bool × CStore) :=
  match cmGetVersion fail st permVersionKey 1 with
  | .error e => .error e
  | .ok version =>
    let key := permCacheKey uid version
    let emptyKey := key ++ ":empty"
    match cmExists fail st key with
    | .error e => .error e
    | .ok true =>
      match cmSmembers fail st key with
      | .ok s =>
          if s.isEmpty then .ok (false, st)
          else .ok (pySubset required s, st)
      | .error _ =>
          let st' := match cmDelete fail st [key] with
            | .ok x => x
            | .error _ => st
          .ok (pySubset required [], st')
    | .ok false =>
      match cmExists fail st emptyKey with
      | .error e => .error e
      | .ok true => .ok (false, st)
      | .ok false =>
        let perms := loadUserPermissionsFromDb db uid
        if perms.isEmpty then
          match cmSet fail st emptyKey "1" with
          | .error e => .error e
          | .ok st' => .ok (pySubset required [], st')
        else
          match cmSadd fail st key perms with
          | .error e => .error e
          | .ok st' =>
            match cmExpire fail st' key 1800 with
            | .error e => .error e
            | .ok st'' => .ok (pySubset required perms, st'')

/-- Boolean outcome of the authorization check; `none` when the check
itself failed with a propagated cache error. -/
def hasPermOutcome (db : Db) (fail : List COp) (st : CStore)
    (uid : Nat) (required : List String) : Option Bool :=
  match userHasPermissions db fail st uid required with
  | .ok (b, _) => some b
  | .error _ => none

/-- `invalidate_user_permissions` (app/core/permissions.py): delete the
positive and negative keys of the current version. -/
def invalidateUserPermissions (fail : List COp) (st : CStore) (uid : Nat) :
    Except Unit CStore :=
  match cmGetVersion fail st permVersionKey 1 with
  | .error e => .error e
  | .ok version =>
    let key := permCacheKey uid version
    cmDelete fail st [key, key ++ ":empty"]

/-- Result counts of a bind operation. -/
structure BindStats where
  added : Nat
  restored : Nat
  existed : Nat
deriving Repr, DecidableEq

/-- Fresh `RolePermission` rows for `bulk_create`: model defaults
(version 0, active, not deleted) with database-assigned sequential ids. -/
def mkRolePermRows (base : Nat) (now : Nat) (roleId : Nat) (pids : List Nat) :
    List RolePermRow :=
  pids.enum.map fun p =>
    { id := base + p.1, version := 0, isActive := true, isDeleted := false,
      deletedAt := none, createdAt := now, updatedAt := now,
      payload := { roleId := roleId, permissionId := p.2 } }

/-- `RolePermissionDAO.bind_permissions` (app/dao/role_permission.py):
look up all rows for the pairs (soft-deleted included), restore the
soft-deleted ones in place (`is_deleted=False, updated_at=now`; note that
`deleted_at` is not cleared), create rows for pairs with no row at all,
and count the untouched active pairs as existed. -/
def bindPermissions (now : Nat) (t : List RolePermRow) (roleId : Nat)
    (pids : List Nat) : List RolePermRow × BindStats :=
  if pids.isEmpty then (t, ⟨0, 0, 0⟩)
  else
    let existing := t.filter fun r =>
      r.payload.roleId == roleId && pids.contains r.payload.permissionId
    let restoreIds := (existing.filter fun r => r.isDeleted).map fun r => r.id
    let existedActive :=
      ((existing.filter fun r => !r.isDeleted).map fun r => r.payload.permissionId).dedup
    let toCreate := pids.filter fun pid =>
      !existedActive.contains pid && existing.all fun x => !(x.payload.permissionId == pid)
    let t1 :=
      if restoreIds.isEmpty then t
      else t.map fun r =>
        if restoreIds.contains r.id then { r with isDeleted := false, updatedAt := now }
        else r
    let t2 :=
      if toCreate.isEmpty then t1
      else t1 ++ mkRolePermRows (nextId t1) now roleId toCreate
    (t2, ⟨toCreate.length, restoreIds.length, existedActive.length⟩)

/-- `RolePermissionDAO.unbind_permissions`:
`alive().filter(role_id, permission_id__in).update(is_deleted=True,
updated_at=now)` (note: `deleted_at` is not set). -/
def unbindPermissions (now : Nat) (t : List RolePermRow) (roleId : Nat)
    (pids : List Nat) : List RolePermRow × Nat :=
  (t.map fun r =>
      if !r.isDeleted && r.payload.roleId == roleId
          && pids.contains r.payload.permissionId then
        { r with isDeleted := true, updatedAt := now }
      else r,
   (t.filter fun r => !r.isDeleted && r.payload.roleId == roleId
      && pids.contains r.payload.permissionId).length)

/-- Number of active (non-soft-deleted) rows holding a given
(role, permission) pair. -/
def activePairCount (t : List RolePermRow) (roleId pid : Nat) : Nat :=
  (t.filter fun r => !r.isDeleted && r.payload.roleId == roleId
     && r.payload.permissionId == pid).length

/-- Structured errors of app/core/exceptions.py, plus the dynamic errors
Python raises before they can be mapped (keyword-binding TypeError). -/
inductive AppErr where
  | conflictErr (msg : String)
  | notFoundErr (msg : String)
  | unauthorizedErr (msg : String)
  | forbiddenErr (msg : String)
  | typeError
deriving Repr, DecidableEq

/-- Live rows of a table, `BaseDAO.alive()`. -/
def aliveRows (t : List (Row α)) : List (Row α) :=
  t.filter fun r => !r.isDeleted

/-- Fresh row for `BaseDAO.create` with the model defaults of
app/models/base.py (`version=0`, active, not deleted). -/
def mkRow (rid now : Nat) (p : α) : Row α :=
  { id := rid, version := 0, isActive := true, isDeleted := false,
    deletedAt := none, createdAt := now, updatedAt := now, payload := p }

/-- `PermissionService.create_permission`: duplicate-code and
duplicate-name checks, create, then `bump_perm_version()`; the epoch
counter is threaded as a plain natural number, and a bump is `+ 1`. -/
def createPermissionSvc (now : Nat) (db : Db) (epoch : Nat)
    (code name : String) : Except AppErr (Db × Nat × PermRow) :=
  if (aliveRows db.perms).any fun r => r.payload.code == code then
    .error (.conflictErr "权限编码已存在")
  else if (aliveRows db.perms).any fun r => r.payload.name == name then
    .error (.conflictErr "权限名称已存在")
  else
    let row := mkRow (nextId db.perms) now ⟨code, name⟩
    .ok ({ db with perms := db.perms ++ [row] }, epoch + 1, row)

/-- `PermissionService.update_permission`: no-op on an empty update map,
optimistic update, `conflict` on zero affected rows, then bump. -/
def updatePermissionSvc (now : Nat) (db : Db) (epoch : Nat) (pid ver : Nat)
    (patch : Option (PermRow → PermRow)) : Except AppErr (Db × Nat × Nat) :=
  match patch with
  | none => .ok (db, epoch, 0)
  | some f =>
    let res := updateWithVersion now db.perms pid ver f
    if res.2 == 0 then .error (.conflictErr "更新冲突或记录不存在")
    else .ok ({ db with perms := res.1 }, epoch + 1, res.2)

/-- `PermissionService.disable_permissions`: disable, bump only when some
row was affected. -/
def disablePermissionsSvc (db : Db) (epoch : Nat) (ids : List Nat) :
    Db × Nat × Nat :=
  let res := disableRows db.perms ids
  ({ db with perms := res.1 }, if res.2 == 0 then epoch else epoch + 1, res.2)

/-- `PermissionService.delete_permission` (soft or hard): bump only when
some row was affected. -/
def deletePermissionSvc (now : Nat) (db : Db) (epoch : Nat) (pid : Nat)
    (hard : Bool) : Db × Nat × Nat :=
  let res := if hard then hardDelete db.perms pid else softDelete now db.perms pid
  ({ db with perms := res.1 }, if res.2 == 0 then epoch else epoch + 1, res.2)

/-- `RoleService.create_role`: duplicate checks and create — no bump in
the source. -/
def createRoleSvc (now : Nat) (db : Db) (epoch : Nat) (code name : String) :
    Except AppErr (Db × Nat × RoleRow) :=
  if (aliveRows db.roles).any fun r => r.payload.code == code then
    .error (.conflictErr "角色编码已存在")
  else if (aliveRows db.roles).any fun r => r.payload.name == name then
    .error (.conflictErr "角色名称已存在")
  else
    let row := mkRow (nextId db.roles) now ⟨code, name⟩
    .ok ({ db with roles := db.roles ++ [row] }, epoch, row)

/-- `RoleService.update_role`: optimistic update, `conflict` on zero
affected rows — and no bump in the source. -/
def updateRoleSvc (now : Nat) (db : Db) (epoch : Nat) (rid ver : Nat)
    (patch : Option (RoleRow → RoleRow)) : Except AppErr (Db × Nat × Nat) :=
  match patch with
  | none => .ok (db, epoch, 0)
  | some f =>
    let res := updateWithVersion now db.roles rid ver f
    if res.2 == 0 then .error (.conflictErr "更新冲突或记录不存在")
    else .ok ({ db with roles := res.1 }, epoch, res.2)

/-- `RoleService.disable_roles`: delegates to the DAO — no bump in the
source. -/
def disableRolesSvc (db : Db) (epoch : Nat) (ids : List Nat) :
    Db × Nat × Nat :=
  let res := disableRows db.roles ids
  ({ db with roles := res.1 }, epoch, res.2)

/-- `RoleService.delete_role` (soft or hard) — no bump in the source. -/
def deleteRoleSvc (now : Nat) (db : Db) (epoch : Nat) (rid : Nat)
    (hard : Bool) : Db × Nat × Nat :=
  let res := if hard then hardDelete db.roles rid else softDelete now db.roles rid
  ({ db with roles := res.1 }, epoch, res.2)

/-- `RoleService.bind_permissions`: role-existence and
permission-existence validation, DAO bind, then an unconditional bump. -/
def bindPermissionsSvc (now : Nat) (db : Db) (epoch : Nat) (roleId : Nat)
    (pids : List Nat) : Except AppErr (Db × Nat × BindStats) :=
  if ((aliveRows db.roles).filter fun r => r.id == roleId).head?.isNone then
    .error (.notFoundErr "角色不存在")
  else if (pids.filter fun pid =>
      !(aliveRows db.perms).any fun r => r.id == pid).isEmpty = false then
    .error (.notFoundErr "权限不存在")
  else
    let res := bindPermissions now db.rolePerms roleId pids
    .ok ({ db with rolePerms := res.1 }, epoch + 1, res.2)

/-- `RoleService.unbind_permissions` (through
`unbind_permissions_from_roles` with a single role id): bump only when
some row was affected. -/
def unbindPermissionsSvc (now : Nat) (db : Db) (epoch : Nat) (roleId : Nat)
    (pids : List Nat) : Db × Nat × Nat :=
  let res := unbindPermissions now db.rolePerms roleId pids
  ({ db with rolePerms := res.1 }, if res.2 == 0 then epoch else epoch + 1, res.2)

/-- Fresh `UserRole` rows for `bulk_create`. -/
def mkUserRoleRows (base : Nat) (now : Nat) (userId : Nat) (rids : List Nat) :
    List UserRoleRow :=
  rids.enum.map fun p =>
    { id := base + p.1, version := 0, isActive := true, isDeleted := false,
      deletedAt := none, createdAt := now, updatedAt := now,
      payload := { userId := userId, roleId := p.2 } }

/-- `UserRoleDAO.bind_roles` (app/dao/user_role.py): same
restore-or-create logic as `bind_permissions`, on the user-role table. -/
def bindRoles (now : Nat) (t : List UserRoleRow) (userId : Nat)
    (rids : List Nat) : List UserRoleRow × BindStats :=
  if rids.isEmpty then (t, ⟨0, 0, 0⟩)
  else
    let existing := t.filter fun r =>
      r.payload.userId == userId && rids.contains r.payload.roleId
    let restoreIds := (existing.filter fun r => r.isDeleted).map fun r => r.id
    let existedActive :=
      ((existing.filter fun r => !r.isDeleted).map fun r => r.payload.roleId).dedup
    let toCreate := rids.filter fun rid =>
      !existedActive.contains rid && existing.all fun x => !(x.payload.roleId == rid)
    let t1 :=
      if restoreIds.isEmpty then t
      else t.map fun r =>
        if restoreIds.contains r.id then { r with isDeleted := false, updatedAt := now }
        else r
    let t2 :=
      if toCreate.isEmpty then t1
      else t1 ++ mkUserRoleRows (nextId t1) now userId toCreate
    (t2, ⟨toCreate.length, restoreIds.length, existedActive.length⟩)

/-- `UserRoleDAO.unbind_roles`: `alive().filter(user_id,
role_id__in).update(is_deleted=True)` (neither `updated_at` nor
`deleted_at` is touched). -/
def unbindRoles (t : List UserRoleRow) (userId : Nat) (rids : List Nat) :
    List UserRoleRow × Nat :=
  (t.map fun r =>
      if !r.isDeleted && r.payload.userId == userId
          && rids.contains r.payload.roleId then
        { r with isDeleted := true }
      else r,
   (t.filter fun r => !r.isDeleted && r.payload.userId == userId
      && rids.contains r.payload.roleId).length)

/-- `UserService.bind_roles`: DAO bind, then an unconditional bump. -/
def bindRolesSvc (now : Nat) (db : Db) (epoch : Nat) (userId : Nat)
    (rids : List Nat) : Db × Nat × BindStats :=
  let res := bindRoles now db.userRoles userId rids
  ({ db with userRoles := res.1 }, epoch + 1, res.2)

/-- `UserService.unbind_roles`: bump only when some row was affected. -/
def unbindRolesSvc (db : Db) (epoch : Nat) (userId : Nat)
    (rids : List Nat) : Db × Nat × Nat :=
  let res := unbindRoles db.userRoles userId rids
  ({ db with userRoles := res.1 }, if res.2 == 0 then epoch else epoch + 1, res.2)

/-- JWT claims this core uses: `sub`, `ver` and `typ`
(app/core/security.py writes them, app/services/auth.py reads them).
Signature and expiry checking are out of scope, so a token is its claim
set. -/
structure Token where
  sub : String
  ver : Nat
  typ : String
deriving Repr, DecidableEq

/-- Keyword parameters accepted by `create_access_token` in
app/core/security.py: `def create_access_token(subject, extra_claims=None)`. -/
def createAccessTokenKwParams : List String := ["extra_claims"]

/-- Keyword arguments passed to `create_access_token` at the call sites in
`AuthService.login` and `AuthService.refresh` (app/services/auth.py):
`create_access_token(subject, extra_claims=..., expires_seconds=...)`. -/
def accessTokenCallKwArgs : List String := ["extra_claims", "expires_seconds"]

/-- Python call binding: a keyword argument not accepted by the function
definition raises TypeError at the call. -/
def callBindsOk (accepted passed : List String) : Bool :=
  passed.all fun kw => accepted.contains kw

/-- Password hashing treated as an opaque injective credential verifier
(bcrypt via passlib in app/core/security.py). -/
def hashPassword (p : String) : String := "bcrypt$" ++ p

/-- `verify_password`. -/
def verifyPassword (p h : String) : Bool := h == hashPassword p

/-- The login/lockout policy values read from `SystemConfig` / settings. -/
structure AuthCfg where
  loginMaxFailedAttempts : Nat
  loginLockMinutes : Nat
  sessionTimeoutHours : Nat
deriving Repr, DecidableEq

/-- Per-user token-epoch store, the `auth:ver:u:{user_id}` keys. -/
abbrev AuthVers := List (String × Nat)

/-- `_user_ver_key` in app/services/auth.py. -/
def userVerKey (uid : Nat) : String := "auth:ver:u:" ++ toString uid

/-- `CacheManager.get_version` on the token-epoch keys (default 1). -/
def getAuthVer (vs : AuthVers) (uid : Nat) : Nat :=
  ((vs.find? fun p => p.1 == userVerKey uid).map fun p => p.2).getD 1

/-- `CacheManager.bump_version` = Redis INCR on the token-epoch key: a
missing key counts as 0 before the increment, so the first bump stores 1. -/
def bumpAuthVer (vs : AuthVers) (uid : Nat) : AuthVers :=
  let k := userVerKey uid
  let n := ((vs.find? fun p => p.1 == k).map fun p => p.2).getD 0
  (k, n + 1) :: vs.filter fun p => !(p.1 == k)

/-- `UserDAO.find_by_username`: `alive().filter(username=...).first()`. -/
def findByUsername (db : Db) (u : String) : Option UserRow :=
  (db.users.filter fun r => !r.isDeleted && r.payload.username == u).head?

/-- `UserDAO.find_by_phone`. -/
def findByPhone (db : Db) (u : String) : Option UserRow :=
  (db.users.filter fun r => !r.isDeleted && r.payload.phone == u).head?

/-- Lookup order of `AuthService.login`: username first, then the same
input as a phone number. -/
def loginUserLookup (db : Db) (u : String) : Option UserRow :=
  match findByUsername db u with
  | some x => some x
  | none => findByPhone db u

/-- Raw `model.filter(id=...).update(...)` used by login to write the
failure counters and the last-login stamp (no optimistic lock). -/
def rawUpdateUser (db : Db) (uid : Nat) (f : UserPayload → UserPayload)
    (now : Nat) : Db :=
  { db with users := db.users.map fun r =>
      if r.id == uid then { r with payload := f r.payload, updatedAt := now } else r }

/-- `AuthService.login` (app/services/auth.py). Times are in minutes.
Returns the resulting store (login mutates failure counters even on a
rejected attempt) together with either the minted pair or the raised
error. The success continuation after the mint is faithful to the source
but unreachable: the `create_access_token` call passes the keyword
`expires_seconds`, which the function does not accept, so Python raises
TypeError at the call. -/
def login (now : Nat) (cfg : AuthCfg) (db : Db) (vers : AuthVers)
    (username password : String) : Db × Except AppErr (Token × Token) :=
  let user? := loginUserLookup db username
  -- if user and not is_active: forbidden
  match user? with
  | some u =>
    if !u.isActive then (db, .error (.forbiddenErr "账号已禁用"))
    else
      -- lock check: locked_until in the future
      if (u.payload.lockedUntil.map fun lu => decide (now < lu)).getD false then
        (db, .error (.forbiddenErr "账户已锁定，请稍后再试"))
      else if !(verifyPassword password u.payload.passwordHash) then
        -- failed verification: re-check the lock window, then bump counters
        if (u.payload.lockedUntil.map fun lu => decide (now < lu)).getD false then
          (db, .error (.forbiddenErr "账户已锁定，请稍后再试"))
        else
          let nextFailed := u.payload.failedAttempts + 1
          let lockMinutes := max 1 cfg.loginLockMinutes
          let maxAttempts := max 1 cfg.loginMaxFailedAttempts
          let nowLocked := decide (maxAttempts ≤ nextFailed)
          let lockedUntil := if nowLocked then some (now + lockMinutes) else none
          let storedFailed := if nowLocked then 0 else nextFailed
          let db' := rawUpdateUser db u.id
            (fun p => { p with failedAttempts := storedFailed, lockedUntil := lockedUntil }) now
          if nowLocked then (db', .error (.forbiddenErr "账户已锁定，请稍后再试"))
          else (db', .error (.unauthorizedErr "用户名或密码错误"))
      else
        -- success branch: read the token epoch (default 1) and mint
        let ver := getAuthVer vers u.id
        if callBindsOk createAccessTokenKwParams accessTokenCallKwArgs then
          let access : Token := { sub := toString u.id, ver := ver, typ := "access" }
          let refreshTok : Token := { sub := toString u.id, ver := ver, typ := "refresh" }
          let db' := rawUpdateUser db u.id
            (fun p => { p with lastLoginAt := some now, failedAttempts := 0,
                               lockedUntil := none }) now
          (db', .ok (access, refreshTok))
        else (db, .error .typeError)
  | none =>
    -- not found (soft-deleted users are invisible to the alive lookups):
    -- uniform credential error
    (db, .error (.unauthorizedErr "用户名或密码错误"))

/-- `BaseDAO.get_by_id` on users. -/
def getUserById (db : Db) (uid : Nat) : Option UserRow :=
  ((aliveRows db.users).filter fun r => r.id == uid).head?

/-- Digits of a decimal numeral to a number; `none` on any non-digit. -/
def digitsToNat? (acc : Nat) : List Char → Option Nat
  | [] => some acc
  | c :: cs =>
      if '0' ≤ c ∧ c ≤ '9' then digitsToNat? (acc * 10 + (c.toNat - '0'.toNat)) cs
      else none

/-- Python `int(...)` on a token subject: the canonical decimal case;
anything else raises (`ValueError`, uncaught in `refresh`). -/
def decimalNat? (s : String) : Option Nat :=
  if s == "" then none else digitsToNat? 0 s.data

/-- `AuthService.refresh` (app/services/auth.py). The mint of the new
pair hits the same `expires_seconds` keyword mismatch as login. -/
def refreshSvc (db : Db) (vers : AuthVers) (tok : Token) :
    Except AppErr (Token × Token) :=
  if !(tok.typ == "refresh") then .error (.unauthorizedErr "无效的刷新令牌")
  else if tok.sub == "" then .error (.unauthorizedErr "刷新令牌无效")
  else
    match decimalNat? tok.sub with
    | none => .error .typeError
    | some uid =>
      let current := getAuthVer vers uid
      if !(tok.ver == current) then .error (.unauthorizedErr "令牌已失效，请重新登录")
      else
        match getUserById db uid with
        | none => .error (.unauthorizedErr "令牌已失效，请重新登录")
        | some u =>
          if !u.isActive then .error (.unauthorizedErr "令牌已失效，请重新登录")
          else if callBindsOk createAccessTokenKwParams accessTokenCallKwArgs then
            .ok ({ sub := tok.sub, ver := current, typ := "access" },
                 { sub := tok.sub, ver := current, typ := "refresh" })
          else .error .typeError

/-- `AuthService.logout`: INCR the per-user token epoch, then best-effort
invalidation of the user's permission cache (errors swallowed). -/
def logoutSvc (fail : List COp) (vers : AuthVers) (st : CStore) (uid : Nat) :
    AuthVers × CStore :=
  let vers' := bumpAuthVer vers uid
  let st' := match invalidateUserPermissions fail st uid with
    | .ok x => x
    | .error _ => st
  (vers', st')

/-- A row with its `is_active` flag cleared; id, soft-delete state and
payload are untouched. -/
def deactivateRow (r : Row α) : Row α := { r with isActive := false }

/-- The store with every row of every table disabled. Permission
resolution reading `is_active` nowhere is expressed as invariance under
this transformation. -/
def deactivateAll (db : Db) : Db :=
  { users := db.users.map deactivateRow,
    roles := db.roles.map deactivateRow,
    perms := db.perms.map deactivateRow,
    userRoles := db.userRoles.map deactivateRow,
    rolePerms := db.rolePerms.map deactivateRow }

/-- A permission code reachable from a user through non-soft-deleted
`UserHasRole` and `RoleGrantsPermission` rows and a non-soft-deleted
`Permission` row — with no condition on any `is_active` flag. -/
def ReachableCode (db : Db) (uid : Nat) (code : String) : Prop :=
  ∃ ur ∈ db.userRoles, ur.isDeleted = false ∧ ur.payload.userId = uid ∧
    ∃ rp ∈ db.rolePerms, rp.isDeleted = false ∧ rp.payload.roleId = ur.payload.roleId ∧
      ∃ p ∈ db.perms, p.isDeleted = false ∧ p.id = rp.payload.permissionId ∧
        p.payload.code = code

/-- Epoch component of a service result. -/
def svcEpoch? (r : Except AppErr (Db × Nat × α)) : Option Nat :=
  match r with
  | .ok x => some x.2.1
  | .error _ => none

/-- Error component of a login outcome. -/
def loginErr? (r : Db × Except AppErr (Token × Token)) : Option AppErr :=
  match r.2 with
  | .error e => some e
  | .ok _ => none

/-- An empty cache. -/
def cstore0 : CStore := []

/-- A user row holding the `super_admin` role: role 1 is coded
super_admin, binding row 1 links user 1 to it, and permission 1 exists
with code user:read (not bound to the role — the super-admin
short-circuit is supposed to make that irrelevant). -/
def dbSuper : Db :=
  { users := [mkRow 1 0 ⟨"admin", "13800000000", hashPassword "admin@123", 0, none, none⟩],
    roles := [mkRow 1 0 ⟨"super_admin", "超级管理员"⟩],
    perms := [mkRow 1 0 ⟨"user:read", "用户查看"⟩],
    userRoles := [mkRow 1 0 ⟨1, 1⟩],
    rolePerms := [] }

/-- A store with a single live role (id 1, version 0) for the role-update
counterexample. -/
def dbOneRole : Db :=
  { users := [], roles := [mkRow 1 0 ⟨"ops", "运维"⟩], perms := [],
    userRoles := [], rolePerms := [] }

/-- A regular user (no roles) granted nothing, with permission 5 bound to
role 3 which user 2 holds — used for resolution witnesses. -/
def dbRegular : Db :=
  { users := [],
    roles := [{ mkRow 3 0 ⟨"ops", "运维"⟩ with isActive := false }],
    perms := [{ mkRow 5 0 ⟨"widget:view", "查看"⟩ with isActive := false }],
    userRoles := [{ mkRow 7 0 ⟨2, 3⟩ with isActive := false }],
    rolePerms := [{ mkRow 9 0 ⟨3, 5⟩ with isActive := false }] }

/-- A disabled (but live) account for the enumeration counterexample. -/
def dbDisabledUser : Db :=
  { users := [{ mkRow 1 0 ⟨"alice", "13900000001", hashPassword "pw123", 0, none, none⟩
                  with isActive := false }],
    roles := [], perms := [], userRoles := [], rolePerms := [] }

/-- The same account soft-deleted instead of disabled. -/
def dbDeletedUser : Db :=
  { users := [{ mkRow 1 0 ⟨"alice", "13900000001", hashPassword "pw123", 0, none, none⟩
                  with isDeleted := true, deletedAt := some 0 }],
    roles := [], perms := [], userRoles := [], rolePerms := [] }

/-- Default policy used in concrete runs (settings defaults). -/
def cfg0 : AuthCfg :=
  { loginMaxFailedAttempts := 5, loginLockMinutes := 15, sessionTimeoutHours := 0 }

/-- Affected-row count of a service result. -/
def svcAffected? (r : Except AppErr (Db × Nat × Nat)) : Option Nat :=
  match r with
  | .ok x => some x.2.2
  | .error _ => none

/-- Error component of a refresh outcome. -/
def refreshErr? (r : Except AppErr (Token × Token)) : Option AppErr :=
  match r with
  | .error e => some e
  | .ok _ => none

/-- Name-only patch used in concrete update runs. -/
def renamePatch (name : String) : RoleRow → RoleRow :=
  fun r => { r with payload := { r.payload with name := name } }

/-- Three-row generic table (live at version 3, live at version 0, and a
soft-deleted row) used to instantiate the base-DAO theorems. -/
def exT : List (Row String) :=
  [{ mkRow 1 0 "a" with version := 3 },
   mkRow 2 0 "b",
   { mkRow 3 0 "c" with isDeleted := true, deletedAt := some 0, version := 1 }]

/-- One active (role 1, permission 5) binding row. -/
def rpPairActive : List RolePermRow := [mkRow 4 0 ⟨1, 5⟩]

/-- The same binding row soft-deleted. -/
def rpPairDeleted : List RolePermRow :=
  [{ mkRow 4 0 (⟨1, 5⟩ : RolePermPayload) with isDeleted := true }]

/-- A cache holding a positive permission-set entry for user 2 at the
default epoch. -/
def stHit : CStore := [(permCacheKey 2 1, CVal.set ["widget:view"])]

/-- Claim C1. The resolver returns the ALL-sentinel for a super_admin
holder, but `user_has_permissions` then checks plain set inclusion with
no sentinel handling, so the check denies any required code other than
the sentinel string itself; a user with an ordinary binding is granted.
This evaluates the embedded check on a super_admin holder and required
code user:read with a clean cache: it returns false where the claim
requires true. -/
theorem c1_super_admin_denied :
    loadUserPermissionsFromDb dbSuper 1 = ["__ALL__"] ∧
    hasPermOutcome dbSuper [] cstore0 1 ["user:read"] = some false ∧
    hasPermOutcome dbRegular [] cstore0 2 ["widget:view"] = some true := by
  refine ⟨rfl, rfl, rfl⟩

/-- Claim C2, counterexample. A successful optimistic update of a Role
(one row affected) leaves the epoch counter untouched:
`RoleService.update_role` never calls `bump_perm_version`, refuting
"every successful mutation to a Role ... calls bump_epoch exactly once". -/
theorem c2_counterexample :
    svcEpoch? (updateRoleSvc 1 dbOneRole 7 1 0 (some (renamePatch "x"))) = some 7 ∧
    svcAffected? (updateRoleSvc 1 dbOneRole 7 1 0 (some (renamePatch "x"))) = some 1 := by
  refine ⟨rfl, rfl⟩

/-- Claim C3. On a login whose account exists, is active, is unlocked and
whose password verifies, the success branch raises TypeError instead of
completing: the call site passes the keyword `expires_seconds`, which
`create_access_token(subject, extra_claims=None)` does not accept. -/
theorem c3_login_success_branch_raises :
    loginErr? (login 0 cfg0 dbSuper [] "admin" "admin@123") = some AppErr.typeError ∧
    callBindsOk createAccessTokenKwParams accessTokenCallKwArgs = false := by
  refine ⟨rfl, rfl⟩

/-- Claim C5, counterexample. A login rejected because the account is
disabled carries the message 账号已禁用 (Forbidden), while the same login
against the soft-deleted account carries 用户名或密码错误 (Unauthorized):
the two user-visible errors differ, so the response does reveal which
condition held. -/
theorem c5_counterexample :
    loginErr? (login 0 cfg0 dbDisabledUser [] "alice" "pw123")
      = some (AppErr.forbiddenErr "账号已禁用") ∧
    loginErr? (login 0 cfg0 dbDeletedUser [] "alice" "pw123")
      = some (AppErr.unauthorizedErr "用户名或密码错误") ∧
    AppErr.forbiddenErr "账号已禁用" ≠ AppErr.unauthorizedErr "用户名或密码错误" := by
  refine ⟨rfl, rfl, by decide⟩

/-- Claim C8. Evidence against both halves of the claim: (a) the first
logout of a user with no epoch key stores 1 via INCR while the read
default is already 1, so the effective epoch does not change and (b) the
pre-logout refresh token then passes the epoch check and the attempt dies
with TypeError (the `expires_seconds` mint bug) rather than succeeding or
being rejected Unauthorized; (c) even with no logout, a current-epoch
refresh for an active user raises TypeError instead of issuing a pair;
(d) once the key exists, a further logout does advance the epoch and the
old token is rejected Unauthorized. -/
theorem c8_logout_refresh_evidence :
    getAuthVer (logoutSvc [] [] cstore0 1).1 1 = 1 ∧
    refreshErr? (refreshSvc dbSuper (logoutSvc [] [] cstore0 1).1 ⟨"1", 1, "refresh"⟩)
      = some .typeError ∧
    refreshErr? (refreshSvc dbSuper [] ⟨"1", 1, "refresh"⟩) = some .typeError ∧
    getAuthVer (logoutSvc [] (logoutSvc [] [] cstore0 1).1 cstore0 1).1 1 = 2 ∧
    refreshErr? (refreshSvc dbSuper (logoutSvc [] (logoutSvc [] [] cstore0 1).1 cstore0 1).1
        ⟨"1", 1, "refresh"⟩)
      = some (.unauthorizedErr "令牌已失效，请重新登录") := by
  refine ⟨rfl, by decide, by decide, rfl, by decide⟩

theorem filter_length_zero_iff {β : Type _} {p : β → Bool} {t : List β} :
    (t.filter p).length = 0 ↔ ∀ r ∈ t, p r = false := by
  rw [List.length_eq_zero, List.filter_eq_nil_iff]
  simp

theorem map_ite_id {β : Type _} {t : List β} {p : β → Bool} {f : β → β}
    (h : ∀ r ∈ t, p r = false) :
    (t.map fun r => if p r then f r else r) = t := by
  have := List.map_congr_left (l := t)
    (f := fun r => if p r then f r else r) (g := id) fun a ha => by
      simp [h a ha]
  rw [this, List.map_id]

theorem length_le_one_of_const {β γ : Type _} {g : β → γ} {l : List β} {c : γ}
    (hn : (l.map g).Nodup) (hc : ∀ r ∈ l, g r = c) : l.length ≤ 1 := by
  match l with
  | [] => simp
  | [a] => simp
  | a :: b :: l' =>
    exfalso
    have hab : g a = g b := by
      rw [hc a (by simp), hc b (by simp)]
    rw [List.map_cons, List.map_cons, List.nodup_cons] at hn
    exact hn.1 (by rw [hab]; exact List.mem_cons_self _ _)

/-- Claim C9. `soft_delete` affects a row only if it is currently live
(then setting `is_deleted`, `deleted_at` and `updated_at`); `restore`
affects a row only if it is currently soft-deleted (then clearing both);
running either operation again on its own output affects zero rows,
changes nothing and raises no error. -/
theorem c9_soft_delete_restore_guard (α : Type) (t : List (Row α))
    (now now2 eid : Nat) :
    ((softDelete now t eid).2 = 0 ↔ ∀ r ∈ t, r.id = eid → r.isDeleted = true)
    ∧ softDelete now2 (softDelete now t eid).1 eid = ((softDelete now t eid).1, 0)
    ∧ (∀ r ∈ t, sdMatches eid r = true →
        { r with isDeleted := true, deletedAt := some now, updatedAt := now }
          ∈ (softDelete now t eid).1)
    ∧ ((restoreRow now t eid).2 = 0 ↔ ∀ r ∈ t, r.id = eid → r.isDeleted = false)
    ∧ restoreRow now2 (restoreRow now t eid).1 eid = ((restoreRow now t eid).1, 0)
    ∧ (∀ r ∈ t, rsMatches eid r = true →
        { r with isDeleted := false, deletedAt := none, updatedAt := now }
          ∈ (restoreRow now t eid).1) := by
  refine ⟨?_, ?_, ?_, ?_, ?_, ?_⟩
  · rw [show (softDelete now t eid).2 = (t.filter (sdMatches eid)).length from rfl,
        filter_length_zero_iff]
    constructor
    · intro h r hr hid
      have := h r hr
      simpa [sdMatches, hid] using this
    · intro h r hr
      by_cases hid : r.id = eid
      · simp [sdMatches, hid, h r hr hid]
      · simp [sdMatches, hid]
  · have hall : ∀ r' ∈ (softDelete now t eid).1, sdMatches eid r' = false := by
      intro r' hr'
      rw [show (softDelete now t eid).1
            = t.map (fun r => if sdMatches eid r then
                { r with isDeleted := true, deletedAt := some now, updatedAt := now }
              else r) from rfl] at hr'
      rw [List.mem_map] at hr'
      obtain ⟨r, hr, rfl⟩ := hr'
      by_cases hm : sdMatches eid r = true
      · rw [if_pos hm]
        simp [sdMatches]
      · rw [if_neg hm]
        exact Bool.not_eq_true _ ▸ Bool.eq_false_iff.mpr hm
    have h1 : (softDelete now2 (softDelete now t eid).1 eid).1
        = (softDelete now t eid).1 := map_ite_id hall
    have h2 : (softDelete now2 (softDelete now t eid).1 eid).2 = 0 :=
      filter_length_zero_iff.2 hall
    rw [show softDelete now2 (softDelete now t eid).1 eid
          = ((softDelete now2 (softDelete now t eid).1 eid).1,
             (softDelete now2 (softDelete now t eid).1 eid).2) from rfl, h1, h2]
  · intro r hr hm
    rw [show (softDelete now t eid).1
          = t.map (fun r => if sdMatches eid r then
              { r with isDeleted := true, deletedAt := some now, updatedAt := now }
            else r) from rfl, List.mem_map]
    exact ⟨r, hr, by rw [if_pos hm]⟩
  · rw [show (restoreRow now t eid).2 = (t.filter (rsMatches eid)).length from rfl,
        filter_length_zero_iff]
    constructor
    · intro h r hr hid
      have := h r hr
      simpa [rsMatches, hid] using this
    · intro h r hr
      by_cases hid : r.id = eid
      · simp [rsMatches, hid, h r hr hid]
      · simp [rsMatches, hid]
  · have hall : ∀ r' ∈ (restoreRow now t eid).1, rsMatches eid r' = false := by
      intro r' hr'
      rw [show (restoreRow now t eid).1
            = t.map (fun r => if rsMatches eid r then
                { r with isDeleted := false, deletedAt := none, updatedAt := now }
              else r) from rfl] at hr'
      rw [List.mem_map] at hr'
      obtain ⟨r, hr, rfl⟩ := hr'
      by_cases hm : rsMatches eid r = true
      · rw [if_pos hm]
        simp [rsMatches]
      · rw [if_neg hm]
        exact Bool.not_eq_true _ ▸ Bool.eq_false_iff.mpr hm
    have h1 : (restoreRow now2 (restoreRow now t eid).1 eid).1
        = (restoreRow now t eid).1 := map_ite_id hall
    have h2 : (restoreRow now2 (restoreRow now t eid).1 eid).2 = 0 :=
      filter_length_zero_iff.2 hall
    rw [show restoreRow now2 (restoreRow now t eid).1 eid
          = ((restoreRow now2 (restoreRow now t eid).1 eid).1,
             (restoreRow now2 (restoreRow now t eid).1 eid).2) from rfl, h1, h2]
  · intro r hr hm
    rw [show (restoreRow now t eid).1
          = t.map (fun r => if rsMatches eid r then
              { r with isDeleted := false, deletedAt := none, updatedAt := now }
            else r) from rfl, List.mem_map]
    exact ⟨r, hr, by rw [if_pos hm]⟩

/-- Claim C9, witness: the guard theorem applied to the concrete
three-row table at id 3 (whose row is soft-deleted). -/
theorem c9_witness :
    ((softDelete 10 exT 3).2 = 0 ↔ ∀ r ∈ exT, r.id = 3 → r.isDeleted = true)
    ∧ softDelete 11 (softDelete 10 exT 3).1 3 = ((softDelete 10 exT 3).1, 0)
    ∧ (∀ r ∈ exT, sdMatches 3 r = true →
        { r with isDeleted := true, deletedAt := some 10, updatedAt := 10 }
          ∈ (softDelete 10 exT 3).1)
    ∧ ((restoreRow 10 exT 3).2 = 0 ↔ ∀ r ∈ exT, r.id = 3 → r.isDeleted = false)
    ∧ restoreRow 11 (restoreRow 10 exT 3).1 3 = ((restoreRow 10 exT 3).1, 0)
    ∧ (∀ r ∈ exT, rsMatches 3 r = true →
        { r with isDeleted := false, deletedAt := none, updatedAt := 10 }
          ∈ (restoreRow 10 exT 3).1) :=
  c9_soft_delete_restore_guard String exT 10 11 3

theorem uwv_matches_id {eid ver : Nat} {r : Row α}
    (h : uwvMatches eid ver r = true) : r.id = eid := by
  simp only [uwvMatches, Bool.and_eq_true, beq_iff_eq] at h
  exact h.1.2

theorem uwv_matches_version {eid ver : Nat} {r : Row α}
    (h : uwvMatches eid ver r = true) : r.version = ver := by
  simp only [uwvMatches, Bool.and_eq_true, beq_iff_eq] at h
  exact h.2

/-- Claim C6. With unique primary keys and a patch that does not write
the key, `update_with_version` affects at most one row; it affects
exactly one row iff a live row with the given id and expected version
exists; zero affected rows leave the table unchanged; a matched row is
replaced by the patched row stamped `version + 1` / `updated_at = now`
and unmatched rows are untouched; and of two sequential updates both
presenting version V against the same row, the first affects one row,
the second affects zero and changes nothing, and every row with that id
ends at version V + 1 (never V + 2). -/
theorem c6_update_with_version_conditional (α : Type) (t : List (Row α))
    (now now2 eid ver : Nat) (p1 p2 : Row α → Row α)
    (hids : (t.map fun r => r.id).Nodup) :
    (updateWithVersion now t eid ver p1).2 ≤ 1
    ∧ ((updateWithVersion now t eid ver p1).2 = 1
        ↔ ∃ r ∈ t, uwvMatches eid ver r = true)
    ∧ ((updateWithVersion now t eid ver p1).2 = 0
        → (updateWithVersion now t eid ver p1).1 = t)
    ∧ (∀ r ∈ t, uwvMatches eid ver r = true →
        { p1 r with version := ver + 1, updatedAt := now }
          ∈ (updateWithVersion now t eid ver p1).1)
    ∧ (∀ r ∈ t, uwvMatches eid ver r = false
        → r ∈ (updateWithVersion now t eid ver p1).1)
    ∧ ((∃ r ∈ t, uwvMatches eid ver r = true) →
        (updateWithVersion now t eid ver p1).2 = 1
        ∧ (∀ r ∈ (updateWithVersion now t eid ver p1).1,
            r.id = eid → r.version = ver + 1)
        ∧ updateWithVersion now2 (updateWithVersion now t eid ver p1).1 eid ver p2
            = ((updateWithVersion now t eid ver p1).1, 0)) := by
  have hstep1 : (updateWithVersion now t eid ver p1).1
      = t.map (fun r => if uwvMatches eid ver r then
          { p1 r with version := ver + 1, updatedAt := now } else r) := rfl
  have hcount : (updateWithVersion now t eid ver p1).2
      = (t.filter (uwvMatches eid ver)).length := rfl
  have hle : (updateWithVersion now t eid ver p1).2 ≤ 1 := by
    rw [hcount]
    have hsubnd : ((t.filter (uwvMatches eid ver)).map fun r => r.id).Nodup :=
      List.Nodup.sublist ((List.filter_sublist t).map fun r => r.id) hids
    exact length_le_one_of_const hsubnd
      (fun r hr => uwv_matches_id (List.mem_filter.mp hr).2)
  have hiff : (updateWithVersion now t eid ver p1).2 = 1
      ↔ ∃ r ∈ t, uwvMatches eid ver r = true := by
    constructor
    · intro h1
      rw [hcount] at h1
      have hpos : 0 < (t.filter (uwvMatches eid ver)).length := by omega
      obtain ⟨a, ha⟩ := List.exists_mem_of_length_pos hpos
      exact ⟨a, (List.mem_filter.mp ha).1, (List.mem_filter.mp ha).2⟩
    · intro ⟨r, hr, hm⟩
      have hpos : 0 < (t.filter (uwvMatches eid ver)).length :=
        List.length_pos.mpr (List.ne_nil_of_mem (List.mem_filter.mpr ⟨hr, hm⟩))
      rw [hcount] at hle ⊢
      omega
  refine ⟨hle, hiff, ?_, ?_, ?_, ?_⟩
  · intro h0
    rw [hcount] at h0
    rw [hstep1]
    exact map_ite_id (filter_length_zero_iff.mp h0)
  · intro r hr hm
    rw [hstep1, List.mem_map]
    exact ⟨r, hr, by rw [if_pos hm]⟩
  · intro r hr hm
    rw [hstep1, List.mem_map]
    exact ⟨r, hr, by rw [if_neg (by simp [hm])]⟩
  · intro hex
    have ha1 : (updateWithVersion now t eid ver p1).2 = 1 := hiff.mpr hex
    obtain ⟨r, hr, hm⟩ := hex
    have hver : ∀ r' ∈ (updateWithVersion now t eid ver p1).1,
        r'.id = eid → r'.version = ver + 1 := by
      intro r' hr' hid
      rw [hstep1, List.mem_map] at hr'
      obtain ⟨r0, hr0, rfl⟩ := hr'
      by_cases hm0 : uwvMatches eid ver r0 = true
      · rw [if_pos hm0]
      · rw [if_neg hm0] at hid ⊢
        have : r0 = r :=
          List.inj_on_of_nodup_map hids hr0 hr (by rw [hid, uwv_matches_id hm])
        subst this
        exact absurd hm hm0
    have hnone : ∀ r' ∈ (updateWithVersion now t eid ver p1).1,
        uwvMatches eid ver r' = false := by
      intro r' hr'
      by_contra hcon
      rw [Bool.not_eq_false] at hcon
      have hv1 := hver r' hr' (uwv_matches_id hcon)
      have hv2 := uwv_matches_version hcon
      omega
    refine ⟨ha1, hver, ?_⟩
    have h1 : (updateWithVersion now2 (updateWithVersion now t eid ver p1).1
        eid ver p2).1 = (updateWithVersion now t eid ver p1).1 :=
      map_ite_id hnone
    have h2 : (updateWithVersion now2 (updateWithVersion now t eid ver p1).1
        eid ver p2).2 = 0 := filter_length_zero_iff.2 hnone
    rw [show updateWithVersion now2 (updateWithVersion now t eid ver p1).1 eid ver p2
          = ((updateWithVersion now2 (updateWithVersion now t eid ver p1).1 eid ver p2).1,
             (updateWithVersion now2 (updateWithVersion now t eid ver p1).1 eid ver p2).2)
        from rfl, h1, h2]

/-- Claim C6, witness: the conditional-update theorem applied to the
concrete table at id 1, version 3, for two competing patches. -/
theorem c6_witness :
    ((updateWithVersion 5 exT 1 3 (fun r => { r with payload := "z" })).2 = 1
      ↔ ∃ r ∈ exT, uwvMatches 1 3 r = true)
    ∧ (∀ r ∈ (updateWithVersion 5 exT 1 3 (fun r => { r with payload := "z" })).1,
        r.id = 1 → r.version = 3 + 1)
    ∧ updateWithVersion 6
        (updateWithVersion 5 exT 1 3 (fun r => { r with payload := "z" })).1 1 3
        (fun r => { r with payload := "w" })
      = ((updateWithVersion 5 exT 1 3 (fun r => { r with payload := "z" })).1, 0) := by
  have h := c6_update_with_version_conditional String exT 5 6 1 3
      (fun r => { r with payload := "z" }) (fun r => { r with payload := "w" }) (by decide)
  have hex : ∃ r ∈ exT, uwvMatches 1 3 r = true := by decide
  exact ⟨h.2.1, (h.2.2.2.2.2 hex).2.1, (h.2.2.2.2.2 hex).2.2⟩

theorem eq_singleton_of_mem_length_le_one {β : Type _} {l : List β} {x : β}
    (h1 : l.length ≤ 1) (h2 : x ∈ l) : l = [x] := by
  match l with
  | [] => cases h2
  | [a] =>
    rw [List.mem_singleton] at h2
    rw [h2]
  | a :: b :: l' =>
    exfalso
    simp at h1

theorem filter_pair_eq (t : List RolePermRow) (roleId pid : Nat) :
    (t.filter fun r =>
        r.payload.roleId == roleId && [pid].contains r.payload.permissionId)
      = t.filter fun r =>
        r.payload.roleId == roleId && r.payload.permissionId == pid := by
  apply List.filter_congr
  intro a _
  by_cases h : a.payload.permissionId = pid <;> simp [List.contains, h]

/-- Claim C7. Under unique row ids and at most one stored row per
(role, permission) pair: binding a pair with an active row leaves the
table unchanged and reports existed = 1; binding a pair with only a
soft-deleted row restores exactly that row in place and reports
restored = 1, added = 0; binding an absent pair appends one fresh row
and reports added = 1. Consequently (closed conjunct) bind, unbind,
bind from an empty table ends with exactly one active row and the
second bind reports restored = 1, added = 0. -/
theorem c7_bind_unbind_restore (t : List RolePermRow) (now roleId pid : Nat)
    (hpair : (t.filter fun r =>
        r.payload.roleId == roleId && r.payload.permissionId == pid).length ≤ 1) :
    (∀ r ∈ t, r.isDeleted = false → r.payload.roleId = roleId →
        r.payload.permissionId = pid →
        bindPermissions now t roleId [pid] = (t, ⟨0, 0, 1⟩))
    ∧ (∀ r ∈ t, r.isDeleted = true → r.payload.roleId = roleId →
        r.payload.permissionId = pid →
        bindPermissions now t roleId [pid]
          = (t.map fun x =>
              if x.id == r.id then { x with isDeleted := false, updatedAt := now }
              else x,
             ⟨0, 1, 0⟩))
    ∧ ((∀ r ∈ t, r.payload.roleId = roleId → r.payload.permissionId = pid → False) →
        bindPermissions now t roleId [pid]
          = (t ++ [mkRow (nextId t) now ⟨roleId, pid⟩], ⟨1, 0, 0⟩))
    ∧ ((bindPermissions 30
          (unbindPermissions 20 (bindPermissions 10 [] 1 [5]).1 1 [5]).1 1 [5]).2
        = ⟨0, 1, 0⟩
       ∧ activePairCount (bindPermissions 30
          (unbindPermissions 20 (bindPermissions 10 [] 1 [5]).1 1 [5]).1 1 [5]).1 1 5
        = 1) := by
  refine ⟨?_, ?_, ?_, by decide⟩
  · intro r hr hdel hrole hpid
    have hex : (t.filter fun x =>
        x.payload.roleId == roleId && [pid].contains x.payload.permissionId) = [r] := by
      rw [filter_pair_eq]
      exact eq_singleton_of_mem_length_le_one hpair
        (List.mem_filter.mpr ⟨hr, by simp [hrole, hpid]⟩)
    simp only [bindPermissions, List.isEmpty_cons, if_false, hex]
    simp [hdel, hpid, List.contains]
  · intro r hr hdel hrole hpid
    have hex : (t.filter fun x =>
        x.payload.roleId == roleId && [pid].contains x.payload.permissionId) = [r] := by
      rw [filter_pair_eq]
      exact eq_singleton_of_mem_length_le_one hpair
        (List.mem_filter.mpr ⟨hr, by simp [hrole, hpid]⟩)
    simp only [bindPermissions, List.isEmpty_cons, if_false, hex]
    simp [hdel, hpid, List.contains]
  · intro habsent
    have hex : (t.filter fun x =>
        x.payload.roleId == roleId && [pid].contains x.payload.permissionId) = [] := by
      rw [filter_pair_eq, List.filter_eq_nil_iff]
      intro a ha
      simp only [Bool.and_eq_true, beq_iff_eq, not_and]
      intro h1 h2
      exact habsent a ha h1 h2
    simp only [bindPermissions, List.isEmpty_cons, if_false, hex]
    simp [mkRolePermRows, mkRow, List.contains]

/-- Claim C7, witness: the classification applied to the one-row tables —
an active pair is reported existed, a soft-deleted pair is restored. -/
theorem c7_witness :
    bindPermissions 30 rpPairActive 1 [5] = (rpPairActive, ⟨0, 0, 1⟩)
    ∧ bindPermissions 30 rpPairDeleted 1 [5]
      = (rpPairDeleted.map fun x =>
          if x.id == ({ mkRow 4 0 (⟨1, 5⟩ : RolePermPayload) with
              isDeleted := true } : RolePermRow).id
          then { x with isDeleted := false, updatedAt := 30 } else x,
         ⟨0, 1, 0⟩) := by
  refine ⟨(c7_bind_unbind_restore rpPairActive 30 1 5 (by decide)).1
      (mkRow 4 0 ⟨1, 5⟩) (by decide) rfl rfl rfl, ?_⟩
  exact (c7_bind_unbind_restore rpPairDeleted 30 1 5 (by decide)).2.1
      { mkRow 4 0 (⟨1, 5⟩ : RolePermPayload) with isDeleted := true }
      (by decide) rfl rfl rfl

theorem listRolesOfUser_deactivate (db : Db) (uid : Nat) :
    listRolesOfUser (deactivateAll db) uid
      = (listRolesOfUser db uid).map deactivateRow := by
  simp only [listRolesOfUser, deactivateAll]
  rw [List.filter_map]
  rfl

theorem findRoleByCode_deactivate (db : Db) (code : String) :
    findRoleByCode (deactivateAll db) code
      = (findRoleByCode db code).map deactivateRow := by
  simp only [findRoleByCode, deactivateAll]
  rw [List.filter_map, List.head?_map]
  rfl

theorem listRolePermsByRoleIds_deactivate (db : Db) (ids : List Nat) :
    listRolePermsByRoleIds (deactivateAll db) ids
      = (listRolePermsByRoleIds db ids).map deactivateRow := by
  simp only [listRolePermsByRoleIds, deactivateAll]
  by_cases hids : ids.isEmpty
  · simp [hids]
  · simp only [hids, if_false, Bool.false_eq_true]
    rw [List.filter_map]
    rfl

theorem listPermsByIds_deactivate (db : Db) (ids : List Nat) :
    listPermsByIds (deactivateAll db) ids
      = (listPermsByIds db ids).map deactivateRow := by
  simp only [listPermsByIds, deactivateAll]
  by_cases hids : ids.isEmpty
  · simp [hids]
  · simp only [hids, if_false, Bool.false_eq_true]
    rw [List.filter_map]
    rfl

/-- Claim C10. Permission resolution filters only on soft-deletion:
(1) clearing every `is_active` flag in the store changes nothing in the
resolved set, and (2) any code reachable through non-soft-deleted
bindings is resolved (or the user resolves to the super-admin sentinel),
whatever the `is_active` flags are — so disabling, as opposed to
soft-deleting, revokes nothing. -/
theorem c10_resolution_ignores_is_active :
    (∀ db uid, loadUserPermissionsFromDb (deactivateAll db) uid
        = loadUserPermissionsFromDb db uid)
    ∧ (∀ db uid code, ReachableCode db uid code →
        loadUserPermissionsFromDb db uid = ["__ALL__"]
        ∨ code ∈ loadUserPermissionsFromDb db uid) := by
  constructor
  · intro db uid
    simp only [loadUserPermissionsFromDb, listRolesOfUser_deactivate,
      findRoleByCode_deactivate, listRolePermsByRoleIds_deactivate,
      listPermsByIds_deactivate, List.map_map]
    cases hfind : findRoleByCode db "super_admin" <;> simp [hfind] <;> rfl
  · intro db uid code hreach
    obtain ⟨ur, hur, hurdel, huruid, rp, hrp, hrpdel, hrprole, p, hp, hpdel,
      hpid, hpcode⟩ := hreach
    have hurmem : ur ∈ listRolesOfUser db uid :=
      List.mem_filter.mpr ⟨hur, by simp [hurdel, huruid]⟩
    have hrid : ur.payload.roleId
        ∈ (listRolesOfUser db uid).map fun r => r.payload.roleId :=
      List.mem_map_of_mem _ hurmem
    have hne : ((listRolesOfUser db uid).map fun r => r.payload.roleId) ≠ [] :=
      List.ne_nil_of_mem hrid
    have hnemp : ((listRolesOfUser db uid).map fun r => r.payload.roleId).isEmpty
        = false := by
      rw [List.isEmpty_eq_false]
      exact hne
    simp only [loadUserPermissionsFromDb, hnemp, Bool.false_eq_true, if_false]
    by_cases hsuper : (match findRoleByCode db "super_admin" with
        | some sr => ((listRolesOfUser db uid).map fun r => r.payload.roleId).contains sr.id
        | none => false) = true
    · rw [if_pos hsuper]
      exact Or.inl rfl
    · rw [if_neg hsuper]
      have hrpmem : rp ∈ listRolePermsByRoleIds db
          ((listRolesOfUser db uid).map fun r => r.payload.roleId) := by
        simp only [listRolePermsByRoleIds, hnemp, Bool.false_eq_true, if_false]
        refine List.mem_filter.mpr ⟨hrp, ?_⟩
        simp only [hrpdel, Bool.not_false, Bool.true_and]
        rw [hrprole]
        exact List.elem_iff.mpr hrid
      have hpidmem : rp.payload.permissionId
          ∈ (listRolePermsByRoleIds db
              ((listRolesOfUser db uid).map fun r => r.payload.roleId)).map
            fun r => r.payload.permissionId :=
        List.mem_map_of_mem _ hrpmem
      have hnemp2 : ((listRolePermsByRoleIds db
          ((listRolesOfUser db uid).map fun r => r.payload.roleId)).map
            fun r => r.payload.permissionId).isEmpty = false := by
        rw [List.isEmpty_eq_false]
        exact List.ne_nil_of_mem hpidmem
      simp only [hnemp2, Bool.false_eq_true, if_false]
      refine Or.inr ?_
      rw [List.mem_dedup]
      have hpmem : p ∈ listPermsByIds db
          ((listRolePermsByRoleIds db
              ((listRolesOfUser db uid).map fun r => r.payload.roleId)).map
            fun r => r.payload.permissionId) := by
        simp only [listPermsByIds, hnemp2, Bool.false_eq_true, if_false]
        refine List.mem_filter.mpr ⟨hp, ?_⟩
        simp only [hpdel, Bool.not_false, Bool.true_and]
        rw [hpid]
        exact List.elem_iff.mpr hpidmem
      rw [← hpcode]
      exact List.mem_map_of_mem _ hpmem

/-- Claim C10, witness: the inclusion applied to a store whose role,
permission and both binding rows all carry `is_active = false`: the code
is still resolved. -/
theorem c10_witness :
    loadUserPermissionsFromDb dbRegular 2 = ["__ALL__"]
    ∨ "widget:view" ∈ loadUserPermissionsFromDb dbRegular 2 :=
  c10_resolution_ignores_is_active.2 dbRegular 2 "widget:view"
    ⟨{ mkRow 7 0 (⟨2, 3⟩ : UserRolePayload) with isActive := false }, by decide, rfl, rfl,
     { mkRow 9 0 (⟨3, 5⟩ : RolePermPayload) with isActive := false }, by decide, rfl, rfl,
     { mkRow 5 0 (⟨"widget:view", "查看"⟩ : PermPayload) with isActive := false },
     by decide, rfl, rfl, rfl⟩

/-- Claim C2, amended. Per-operation epoch behaviour of the service
layer: every successful Permission mutation bumps the epoch exactly once
after its write (disable/delete only when a row was affected, an empty
update map performs neither write nor bump, and a conflict error bumps
nothing — structurally, since no state is returned); the role-permission
and user-role bind operations bump once per batch (bind unconditionally,
unbind only when a row was affected); but `RoleService`'s create, update,
disable and delete of the Role entity itself never bump. -/
theorem c2_epoch_bump_amended :
    (∀ now db e code name, (createPermissionSvc now db e code name).isOk = true →
        svcEpoch? (createPermissionSvc now db e code name) = some (e + 1))
    ∧ (∀ now db e pid ver f, (updatePermissionSvc now db e pid ver (some f)).isOk = true →
        svcEpoch? (updatePermissionSvc now db e pid ver (some f)) = some (e + 1))
    ∧ (∀ now db e pid ver, updatePermissionSvc now db e pid ver none = .ok (db, e, 0))
    ∧ (∀ db e ids, (disablePermissionsSvc db e ids).2.1
        = if (disablePermissionsSvc db e ids).2.2 = 0 then e else e + 1)
    ∧ (∀ now db e pid hard, (deletePermissionSvc now db e pid hard).2.1
        = if (deletePermissionSvc now db e pid hard).2.2 = 0 then e else e + 1)
    ∧ (∀ now db e rid pids, (bindPermissionsSvc now db e rid pids).isOk = true →
        svcEpoch? (bindPermissionsSvc now db e rid pids) = some (e + 1))
    ∧ (∀ now db e rid pids, (unbindPermissionsSvc now db e rid pids).2.1
        = if (unbindPermissionsSvc now db e rid pids).2.2 = 0 then e else e + 1)
    ∧ (∀ now db e uid rids, (bindRolesSvc now db e uid rids).2.1 = e + 1)
    ∧ (∀ db e uid rids, (unbindRolesSvc db e uid rids).2.1
        = if (unbindRolesSvc db e uid rids).2.2 = 0 then e else e + 1)
    ∧ (∀ now db e code name, (createRoleSvc now db e code name).isOk = true →
        svcEpoch? (createRoleSvc now db e code name) = some e)
    ∧ (∀ now db e rid ver f, (updateRoleSvc now db e rid ver f).isOk = true →
        svcEpoch? (updateRoleSvc now db e rid ver f) = some e)
    ∧ (∀ db e ids, (disableRolesSvc db e ids).2.1 = e)
    ∧ (∀ now db e rid hard, (deleteRoleSvc now db e rid hard).2.1 = e) := by
  refine ⟨?_, ?_, ?_, ?_, ?_, ?_, ?_, ?_, ?_, ?_, ?_, ?_, ?_⟩
  · intro now db e code name h
    simp only [createPermissionSvc] at h ⊢
    split_ifs at h ⊢ <;> simp_all [Except.isOk, Except.toBool, svcEpoch?]
  · intro now db e pid ver f h
    simp only [updatePermissionSvc] at h ⊢
    split_ifs at h ⊢ <;> simp_all [Except.isOk, Except.toBool, svcEpoch?]
  · intro now db e pid ver
    rfl
  · intro db e ids
    simp only [disablePermissionsSvc]
    by_cases h : (disableRows db.perms ids).2 = 0 <;> simp [h]
  · intro now db e pid hard
    simp only [deletePermissionSvc]
    by_cases h : (if hard then hardDelete db.perms pid
        else softDelete now db.perms pid).2 = 0 <;> simp [h]
  · intro now db e rid pids h
    simp only [bindPermissionsSvc] at h ⊢
    split_ifs at h ⊢ <;> simp_all [Except.isOk, Except.toBool, svcEpoch?]
  · intro now db e rid pids
    simp only [unbindPermissionsSvc]
    by_cases h : (unbindPermissions now db.rolePerms rid pids).2 = 0 <;> simp [h]
  · intro now db e uid rids
    rfl
  · intro db e uid rids
    simp only [unbindRolesSvc]
    by_cases h : (unbindRoles db.userRoles uid rids).2 = 0 <;> simp [h]
  · intro now db e code name h
    simp only [createRoleSvc] at h ⊢
    split_ifs at h ⊢ <;> simp_all [Except.isOk, Except.toBool, svcEpoch?]
  · intro now db e rid ver f h
    match f with
    | none => rfl
    | some g =>
      simp only [updateRoleSvc] at h ⊢
      split_ifs at h ⊢ <;> simp_all [Except.isOk, Except.toBool, svcEpoch?]
  · intro db e ids
    rfl
  · intro now db e rid hard
    rfl

/-- Claim C2 (amended), witness: concrete successful runs — a permission
create bumps 5 to 6, a bind bumps 5 to 6, a role update and a role
disable leave the epoch at 7. -/
theorem c2_witness :
    (createPermissionSvc 0 dbOneRole 5 "log:view" "日志查看").isOk = true
    ∧ svcEpoch? (createPermissionSvc 0 dbOneRole 5 "log:view" "日志查看") = some (5 + 1)
    ∧ svcEpoch? (bindPermissionsSvc 0 dbRegular 5 3 [5]) = some (5 + 1)
    ∧ (updateRoleSvc 1 dbOneRole 7 1 0 (some (renamePatch "y"))).isOk = true
    ∧ svcEpoch? (updateRoleSvc 1 dbOneRole 7 1 0 (some (renamePatch "y"))) = some 7
    ∧ (disableRolesSvc dbOneRole 7 [1]).2.1 = 7 := by
  refine ⟨by decide, ?_, ?_, by decide, ?_, ?_⟩
  · exact c2_epoch_bump_amended.1 0 dbOneRole 5 "log:view" "日志查看" (by decide)
  · exact c2_epoch_bump_amended.2.2.2.2.2.1 0 dbRegular 5 3 [5] (by decide)
  · exact c2_epoch_bump_amended.2.2.2.2.2.2.2.2.2.2.1 1 dbOneRole 7 1 0
      (some (renamePatch "y")) (by decide)
  · exact c2_epoch_bump_amended.2.2.2.2.2.2.2.2.2.2.2.1 dbOneRole 7 [1]

/-- Claim C5, amended. A login against a live but disabled account is
rejected Forbidden with the dedicated message 账号已禁用, revealing that
the account is disabled; a login whose account lookup finds nothing —
which is what happens for a soft-deleted account, since the lookups are
alive-only — is rejected Unauthorized with the uniform credential
message 用户名或密码错误, the same as for a nonexistent user, so deleted
is indistinguishable from nonexistent but disabled is distinguishable
from both. -/
theorem c5_login_messages_amended :
    (∀ now cfg db vers uname pw u,
        findByUsername db uname = some u → u.isActive = false →
        loginErr? (login now cfg db vers uname pw)
          = some (.forbiddenErr "账号已禁用"))
    ∧ (∀ now cfg db vers uname pw,
        loginUserLookup db uname = none →
        loginErr? (login now cfg db vers uname pw)
          = some (.unauthorizedErr "用户名或密码错误")) := by
  constructor
  · intro now cfg db vers uname pw u hu hact
    simp [login, loginUserLookup, hu, hact, loginErr?]
  · intro now cfg db vers uname pw hnone
    simp [login, hnone, loginErr?]

/-- Claim C5 (amended), witness: the two branches applied to the
disabled-account store and the soft-deleted-account store. -/
theorem c5_witness :
    loginErr? (login 3 cfg0 dbDisabledUser [] "alice" "pw123")
      = some (.forbiddenErr "账号已禁用")
    ∧ loginErr? (login 3 cfg0 dbDeletedUser [] "alice" "pw123")
      = some (.unauthorizedErr "用户名或密码错误") :=
  ⟨c5_login_messages_amended.1 3 cfg0 dbDisabledUser [] "alice" "pw123"
      { mkRow 1 0 (⟨"alice", "13900000001", hashPassword "pw123", 0, none, none⟩
          : UserPayload) with isActive := false } (by decide) rfl,
   c5_login_messages_amended.2 3 cfg0 dbDeletedUser [] "alice" "pw123" rfl⟩

/-- Claim C4, counterexample. An injected backend error on `exists` makes
the authorization check itself fail (outcome `none`) on a state where
direct resolution authorizes the request; an injected error on `smembers`
over a populated cache entry flips the outcome to a denial instead of
falling back to the Entity Store. Both contradict "does not fail the
check and does not change its outcome". -/
theorem c4_counterexample :
    hasPermOutcome dbRegular [COp.cexists] cstore0 2 ["widget:view"] = none
    ∧ hasPermOutcome dbRegular [] cstore0 2 ["widget:view"] = some true
    ∧ hasPermOutcome dbRegular [COp.csmembers] stHit 2 ["widget:view"] = some false
    ∧ hasPermOutcome dbRegular [] stHit 2 ["widget:view"] = some true := by
  refine ⟨rfl, rfl, rfl, rfl⟩

theorem pySubset_nil_of_ne {req : List String} (h : req ≠ []) :
    pySubset req [] = false := by
  match req with
  | [] => exact absurd rfl h
  | c :: cs => simp [pySubset]

theorem cmGetVersion_ok_nil {F : List COp} {st : CStore} {k : String}
    {d v : Nat} (h : cmGetVersion F st k d = .ok v) :
    cmGetVersion [] st k d = .ok v := by
  by_cases hF : COp.cget ∈ F
  · simp [cmGetVersion, hF] at h
  · simpa [cmGetVersion, hF] using h

theorem cmExists_ok_nil {F : List COp} {st : CStore} {k : String} {b : Bool}
    (h : cmExists F st k = .ok b) : cmExists [] st k = .ok b := by
  by_cases hF : COp.cexists ∈ F
  · simp [cmExists, hF] at h
  · simpa [cmExists, hF] using h

theorem cmSmembers_ok_nil {F : List COp} {st : CStore} {k : String}
    {s : List String} (h : cmSmembers F st k = .ok s) :
    cmSmembers [] st k = .ok s := by
  by_cases hF : COp.csmembers ∈ F
  · simp [cmSmembers, hF] at h
  · simpa [cmSmembers, hF] using h

theorem cmSadd_ok_nil {F : List COp} {st : CStore} {k : String}
    {ms : List String} {st' : CStore} (h : cmSadd F st k ms = .ok st') :
    cmSadd [] st k ms = .ok st' := by
  by_cases hF : COp.csadd ∈ F
  · simp [cmSadd, hF] at h
  · simpa [cmSadd, hF] using h

theorem cmSet_ok_nil {F : List COp} {st : CStore} {k v : String}
    {st' : CStore} (h : cmSet F st k v = .ok st') :
    cmSet [] st k v = .ok st' := by
  by_cases hF : COp.cset ∈ F
  · simp [cmSet, hF] at h
  · simpa [cmSet, hF] using h

theorem cmExpire_ok_nil {F : List COp} {st : CStore} {k : String} {ttl : Nat}
    {st' : CStore} (h : cmExpire F st k ttl = .ok st') :
    cmExpire [] st k ttl = .ok st' := by
  by_cases hF : COp.cexpire ∈ F
  · simp [cmExpire, hF] at h
  · simpa [cmExpire, hF] using h

theorem c4F_exists (st : CStore) (k : String) :
    cmExists [COp.csmembers, COp.cdelete] st k = .ok (cmLookup st k).isSome := rfl

theorem c4F_smembers (st : CStore) (k : String) :
    cmSmembers [COp.csmembers, COp.cdelete] st k = .error () := rfl

theorem c4F_delete (st : CStore) (ks : List String) :
    cmDelete [COp.csmembers, COp.cdelete] st ks = .error () := rfl

theorem c4F_set (st : CStore) (k v : String) :
    cmSet [COp.csmembers, COp.cdelete] st k v = .ok (cmInsert st k (.str v)) := rfl

theorem c4F_expire (st : CStore) (k : String) (ttl : Nat) :
    cmExpire [COp.csmembers, COp.cdelete] st k ttl = .ok st := rfl

theorem c4F_sadd_none (st : CStore) (k : String) (ms : List String)
    (h : cmLookup st k = none) :
    cmSadd [COp.csmembers, COp.cdelete] st k ms
      = .ok (cmInsert st k (.set ms.dedup)) := by
  rw [show cmSadd [COp.csmembers, COp.cdelete] st k ms
        = (match cmLookup st k with
           | some (.set old) =>
               .ok (cmInsert st k (.set (old ++ ms.filter fun m => !old.contains m)))
           | some _ => .error ()
           | none => .ok (cmInsert st k (.set ms.dedup))) from rfl, h]

/-- Claim C4, amended. Cache-error behaviour of the check as written:
(1) with errors injected on `smembers` and its clean-up `delete` (the
only calls inside a `try`), the check never fails outright;
(2) on a cache hit, the absorbed `smembers` error makes the check return
false for any non-empty required set without re-resolving from the
Entity Store; (3) whatever set of operations errors, the check never
returns true unless the same check with no errors also returns true —
errors on `exists`, `sadd`, `set` or `expire` instead propagate and fail
the check, as the counterexample shows. -/
theorem c4_cache_error_amended :
    (∀ db st uid req v,
        cmGetVersion [COp.csmembers, COp.cdelete] st permVersionKey 1 = .ok v →
        hasPermOutcome db [COp.csmembers, COp.cdelete] st uid req ≠ none)
    ∧ (∀ db st uid req v, req ≠ [] →
        cmGetVersion [COp.csmembers, COp.cdelete] st permVersionKey 1 = .ok v →
        (cmLookup st (permCacheKey uid v)).isSome = true →
        hasPermOutcome db [COp.csmembers, COp.cdelete] st uid req = some false)
    ∧ (∀ db F st uid req, req ≠ [] →
        hasPermOutcome db F st uid req = some true →
        hasPermOutcome db [] st uid req = some true) := by
  refine ⟨?_, ?_, ?_⟩
  · intro db st uid req v hv
    unfold hasPermOutcome userHasPermissions
    rw [hv]
    dsimp only
    rw [c4F_exists]
    cases hcl : cmLookup st (permCacheKey uid v) with
    | some cv =>
      simp [c4F_smembers, c4F_delete]
    | none =>
      rw [c4F_exists]
      cases hcl2 : cmLookup st (permCacheKey uid v ++ ":empty") with
      | some cv2 =>
        simp
      | none =>
        by_cases hp : (loadUserPermissionsFromDb db uid).isEmpty
        · simp [hp, c4F_set]
        · simp [hp, c4F_sadd_none st _ _ hcl, c4F_expire]
  · intro db st uid req v hreq hv hhit
    unfold hasPermOutcome userHasPermissions
    rw [hv]
    dsimp only
    rw [c4F_exists, hhit]
    simp [c4F_smembers, c4F_delete, pySubset_nil_of_ne hreq]
  · intro db F st uid req hreq h
    unfold hasPermOutcome userHasPermissions at h ⊢
    cases hv : cmGetVersion F st permVersionKey 1 with
    | error e => rw [hv] at h; exact absurd h (by simp)
    | ok v =>
      rw [hv] at h
      rw [cmGetVersion_ok_nil hv]
      dsimp only at h ⊢
      cases he : cmExists F st (permCacheKey uid v) with
      | error e => rw [he] at h; exact absurd h (by simp)
      | ok b =>
        rw [he] at h
        rw [cmExists_ok_nil he]
        cases b with
        | true =>
          cases hs : cmSmembers F st (permCacheKey uid v) with
          | ok s =>
            rw [hs] at h
            rw [cmSmembers_ok_nil hs]
            exact h
          | error e =>
            rw [hs] at h
            rw [pySubset_nil_of_ne hreq] at h
            exact absurd h (by simp)
        | false =>
          cases he2 : cmExists F st (permCacheKey uid v ++ ":empty") with
          | error e => rw [he2] at h; exact absurd h (by simp)
          | ok b2 =>
            rw [he2] at h
            rw [cmExists_ok_nil he2]
            cases b2 with
            | true => exact h
            | false =>
              by_cases hp : (loadUserPermissionsFromDb db uid).isEmpty
              · rw [if_pos hp] at h ⊢
                cases hset : cmSet F st (permCacheKey uid v ++ ":empty") "1" with
                | error e => rw [hset] at h; exact absurd h (by simp)
                | ok st' =>
                  rw [hset] at h
                  rw [pySubset_nil_of_ne hreq] at h
                  exact absurd h (by simp)
              · rw [if_neg hp] at h ⊢
                cases hsa : cmSadd F st (permCacheKey uid v)
                    (loadUserPermissionsFromDb db uid) with
                | error e =>
                  rw [hsa] at h
                  exact absurd h (by simp)
                | ok st' =>
                  rw [hsa] at h
                  rw [cmSadd_ok_nil hsa]
                  dsimp only at h ⊢
                  cases hexp : cmExpire F st' (permCacheKey uid v) 1800 with
                  | error e =>
                    rw [hexp] at h
                    exact absurd h (by simp)
                  | ok st'' =>
                    rw [hexp] at h
                    rw [cmExpire_ok_nil hexp]
                    exact h

/-- Claim C4 (amended), witness: on the populated cache entry, with
`smembers` and `delete` failing, the check returns false for the
non-empty required list; and an error-free run that returns true is
returned true by the error-free run (part 3 applied with the unused
`delete` failure injected). -/
theorem c4_witness :
    hasPermOutcome dbRegular [COp.csmembers, COp.cdelete] stHit 2 ["widget:view"]
      = some false
    ∧ hasPermOutcome dbRegular [] cstore0 2 ["widget:view"] = some true :=
  ⟨c4_cache_error_amended.2.1 dbRegular stHit 2 ["widget:view"] 1
      (by decide) rfl rfl,
   c4_cache_error_amended.2.2 dbRegular [COp.cdelete] cstore0 2 ["widget:view"]
      (by decide) rfl⟩

end FA
